import Mathlib

/-!
Shallow embedding of the Astro Scheduler core (Assignment 2 of the
EducationalInitiatives repository): the time utilities (`TimeUtils.ts`), the
task model (`Task.ts`), the validation service (`ValidationService.ts`), the
schedule manager (`ScheduleManager.ts`) and its observer dispatch, together
with theorems settling the specification's claims about them.

Modelling conventions:
* JS strings are Lean `String`s; the string primitives the code uses
  (`split(':')`, `parseInt(_, 10)`, `trim`, `toLowerCase`) are embedded as
  recursive functions on the character list.
* `Date` values are abstracted to `Nat` (milliseconds since the epoch); the
  `toISOString` / `new Date(iso)` codec is modelled by the injective pair
  `encodeDate` / `decodeDate`, which round-trips exactly as the real codec
  does at millisecond precision.
* The JSON wire format is modelled by the `JValue` tree: `exportToJSON`
  produces a `JValue`, `importFromJSON` consumes one.  `JSON.stringify` and
  `JSON.parse` are mutually inverse on such trees and are not re-modelled.
* Thrown exceptions are `Except Err` / an `Option Err` component of each
  operation's result.  Each manager operation returns the final task store,
  the list of `(eventKind, eventData)` pairs it published, and the error it
  (re-)raised, if any.
* The JS `Map<string, Task>` keyed by task id, iterated in insertion order,
  is a `List Task` whose ids are pairwise distinct in reachable states;
  `Map.set` / `Map.delete` are `mapSet` / `mapDelete`.
-/

namespace AstroSched

/-- One step of the JS `parseInt(s, 10)` scan: accumulate the decimal value
of the leading digit prefix, stopping at the first non-digit character.  The
accumulator is `none` while no digit has been consumed (the `NaN` case). -/
def parseDigitsAux : List Char → Option Nat → Option Nat
  | [], acc => acc
  | c :: rest, acc =>
    if c.isDigit then
      parseDigitsAux rest (some ((acc.getD 0) * 10 + (c.toNat - 48)))
    else acc

/-- JS `parseInt(s, 10)`: value of the longest digit prefix, `none` (`NaN`)
if the string does not start with a digit.  (The sign/whitespace handling of
the runtime `parseInt` never arises here: every call site feeds it a piece
of an `HH:MM` string or `undefined`, modelled as a digit-free list.) -/
def parseIntJS (cs : List Char) : Option Nat :=
  parseDigitsAux cs none

/-- JS `String.prototype.split(':')` on the character list. -/
def splitColon : List Char → List (List Char)
  | [] => [[]]
  | c :: rest =>
    if c = ':' then [] :: splitColon rest
    else
      match splitColon rest with
      | [] => [[c]]
      | g :: gs => (c :: g) :: gs

/-- JS `String.prototype.trim()` (the code only ever compares the result
with the empty string, so the exact whitespace alphabet is immaterial). -/
def jsTrim (s : String) : String :=
  ⟨(((s.data.dropWhile Char.isWhitespace).reverse).dropWhile Char.isWhitespace).reverse⟩

/-- JS `String.prototype.toLowerCase()` (ASCII case folding, which is all
the repository's descriptions exercise). -/
def jsToLower (s : String) : String :=
  ⟨s.data.map Char.toLower⟩

/-- The custom error classes of `ErrorHandler.ts`, one constructor per
class, each carrying its `message`. -/
inductive Err where
  | taskConflict (msg : String)
  | taskNotFound (msg : String)
  | invalidTimeFormat (msg : String)
  | invalidTimeRange (msg : String)
  | invalidTaskDescription (msg : String)
  | genericError (msg : String)
deriving Repr, DecidableEq

deriving instance DecidableEq for Except

/-- The runtime `error.name` property: each `ErrorHandler.ts` class sets
`this.name` to its class name; a bare `new Error(...)` has name `Error`. -/
def Err.errorName : Err → String
  | .taskConflict _ => "TaskConflictError"
  | .taskNotFound _ => "TaskNotFoundError"
  | .invalidTimeFormat _ => "InvalidTimeFormatError"
  | .invalidTimeRange _ => "InvalidTimeRangeError"
  | .invalidTaskDescription _ => "InvalidTaskDescriptionError"
  | .genericError _ => "Error"

/-- The runtime `error.message` property. -/
def Err.errorMessage : Err → String
  | .taskConflict m => m
  | .taskNotFound m => m
  | .invalidTimeFormat m => m
  | .invalidTimeRange m => m
  | .invalidTaskDescription m => m
  | .genericError m => m

/-- `TimeUtils.TIME_REGEX.test`: the regex `([01]\d|2[0-3]):([0-5]\d)`
anchored at both ends, i.e. exactly five characters `HH:MM` (the character
classes `[0-3]` and `[0-5]` are written out as the characters they
contain). -/
def isValidTimeFormat (s : String) : Bool :=
  match s.data with
  | [h1, h2, c, m1, m2] =>
    (((h1 = '0' || h1 = '1') && h2.isDigit) ||
      (h1 = '2' && (h2 = '0' || h2 = '1' || h2 = '2' || h2 = '3')))
      && c = ':'
      && (m1 = '0' || m1 = '1' || m1 = '2' || m1 = '3' || m1 = '4' || m1 = '5')
      && m2.isDigit
  | _ => false

/-- `TimeUtils.validateTimeFormat`. -/
def validateTimeFormat (time : String) : Except Err Unit :=
  if isValidTimeFormat time then .ok ()
  else .error (.invalidTimeFormat
    ("Invalid time format \"" ++ time ++ "\". Must be HH:MM (24-hour format)."))

/-- `TimeUtils.timeToMinutes` without its throw: split on `':'`, parse the
first two pieces (a missing second piece is JS `undefined`, whose `parseInt`
is `NaN`), and combine; `none` is the `NaN`-detected case. -/
def timeToMinutes? (time : String) : Option Nat :=
  match splitColon time.data with
  | hourStr :: minuteStr :: _ =>
    match parseIntJS hourStr, parseIntJS minuteStr with
    | some hours, some minutes => some (hours * 60 + minutes)
    | _, _ => none
  | _ => none

/-- `TimeUtils.timeToMinutes`, throwing `InvalidTimeFormatError` on the
`NaN` fallback branch exactly as the source does. -/
def timeToMinutesE (time : String) : Except Err Nat :=
  match timeToMinutes? time with
  | some n => .ok n
  | none => .error (.invalidTimeFormat
    ("Internal error converting time \"" ++ time ++ "\"."))

/-- `TimeUtils.validateTimeRange` (the sequential throws of the source are
written as explicit `match`es on each step's result). -/
def validateTimeRange (startTime endTime : String) : Except Err Unit :=
  match timeToMinutesE startTime with
  | .error e => .error e
  | .ok startMinutes =>
    match timeToMinutesE endTime with
    | .error e => .error e
    | .ok endMinutes =>
      if startMinutes ≥ endMinutes then
        .error (.invalidTimeRange
          ("Invalid time range: Start time (" ++ startTime
            ++ ") must be strictly before end time (" ++ endTime ++ ")."))
      else .ok ()

/-- `TimeUtils.compareTimeStrings` (difference of the two minute values). -/
def compareTimeStrings (time1 time2 : String) : Except Err Int :=
  match timeToMinutesE time1, timeToMinutesE time2 with
  | .error e, _ => .error e
  | .ok _, .error e => .error e
  | .ok minutes1, .ok minutes2 => .ok ((minutes1 : Int) - (minutes2 : Int))

/-- `TimeUtils.doTimeRangesOverlap`: half-open interval overlap test
`s1 < e2 && s2 < e1` on the minute values, propagating the conversion
throws in evaluation order. -/
def doTimeRangesOverlap (start1 end1 start2 end2 : String) : Except Err Bool :=
  match timeToMinutesE start1 with
  | .error e => .error e
  | .ok s1 =>
    match timeToMinutesE end1 with
    | .error e => .error e
    | .ok e1 =>
      match timeToMinutesE start2 with
      | .error e => .error e
      | .ok s2 =>
        match timeToMinutesE end2 with
        | .error e => .error e
        | .ok e2 => .ok (decide (s1 < e2) && decide (s2 < e1))

/-- A parsed JSON document (the tree `JSON.parse` would produce /
`JSON.stringify` would consume). -/
inductive JValue where
  | jnull
  | jbool (b : Bool)
  | jnum (n : Int)
  | jstr (s : String)
  | jarr (elems : List JValue)
  | jobj (fields : List (String × JValue))

/-- Property lookup `obj[key]` on a parsed JSON object; `none` is the JS
`undefined` (missing property, or a non-object receiver). -/
def jGet (j : JValue) (key : String) : Option JValue :=
  match j with
  | .jobj fields => (fields.find? (fun p => p.1 == key)).map Prod.snd
  | _ => none

/-- JS truthiness of a property read (`undefined`, `null`, `false`, `0` and
`""` are falsy; everything else is truthy). -/
def jsTruthy : Option JValue → Bool
  | none => false
  | some .jnull => false
  | some (.jbool b) => b
  | some (.jnum n) => n != 0
  | some (.jstr s) => s != ""
  | some (.jarr _) => true
  | some (.jobj _) => true

/-- Read a property expected to be a string.  A missing or non-string
property is runtime `undefined`; it is embedded as `""`, which fails the
same downstream checks (the falsiness test on `description`, the `HH:MM`
regex on the time fields) as `undefined` does, and no claim distinguishes
the two. -/
def jGetStrD (j : JValue) (key : String) : String :=
  match jGet j key with
  | some (.jstr s) => s
  | _ => ""

/-- `Date.prototype.toISOString`, abstracted to an injective decimal
encoding of the `Nat` timestamp. -/
def encodeDate (n : Nat) : String :=
  ⟨Nat.toDigits 10 n⟩

/-- `new Date(isoString).getTime()`: the inverse of `encodeDate`; `none`
is an invalid date. -/
def decodeDate (s : String) : Option Nat :=
  parseIntJS s.data

/-- The `Task` entity of `Task.ts`.  `priority` is kept at its runtime type
(the TS `TaskPriority` enum is a string enum with values `Low` / `Medium` /
`High`, and `Task.fromJSON` stores `obj.priority` through an unchecked
cast, so arbitrary strings are representable exactly as at runtime). -/
structure Task where
  id : String
  description : String
  startTime : String
  endTime : String
  priority : String
  completed : Bool
  createdAt : Nat
  updatedAt : Option Nat
deriving Repr, DecidableEq

/-- The sparse changeset `Partial<Omit<Task, 'id' | 'createdAt'>>` accepted
by `Task.update` / `ScheduleManager.updateTask`. -/
structure TaskUpdate where
  description : Option String
  startTime : Option String
  endTime : Option String
  priority : Option String
  completed : Option Bool
deriving Repr, DecidableEq

/-- `Task.prototype.clone` (a deep copy; `new Date(this.createdAt)` has the
same timestamp value, so the copy is value-equal to the original). -/
def Task.clone (t : Task) : Task := t

/-- `Task.prototype.update`: apply each present field of the changeset and
stamp `updatedAt` with the current time. -/
def Task.update (t : Task) (updates : TaskUpdate) (now : Nat) : Task :=
  { t with
    description := updates.description.getD t.description
    startTime := updates.startTime.getD t.startTime
    endTime := updates.endTime.getD t.endTime
    priority := updates.priority.getD t.priority
    completed := updates.completed.getD t.completed
    updatedAt := some now }

/-- `Task.prototype.markCompleted`. -/
def Task.markCompleted (t : Task) (now : Nat) : Task :=
  { t with completed := true, updatedAt := some now }

/-- `Task.prototype.getDurationInMinutes`: re-splits and re-parses both
time strings exactly as `timeToMinutes` does and subtracts; `none` is the
`NaN` result the untrapped JS arithmetic would produce on malformed
times. -/
def Task.getDurationInMinutes (t : Task) : Option Int := do
  let startMinutes ← timeToMinutes? t.startTime
  let endMinutes ← timeToMinutes? t.endTime
  return (endMinutes : Int) - (startMinutes : Int)

/-- `Task.prototype.toJSON` (the `NaN` duration of a malformed task is
what `JSON.stringify` renders as `null`). -/
def Task.toJSON (t : Task) : JValue :=
  .jobj
    [("id", .jstr t.id),
     ("description", .jstr t.description),
     ("startTime", .jstr t.startTime),
     ("endTime", .jstr t.endTime),
     ("priority", .jstr t.priority),
     ("completed", .jbool t.completed),
     ("createdAt", .jstr (encodeDate t.createdAt)),
     ("updatedAt", match t.updatedAt with
       | some u => .jstr (encodeDate u)
       | none => .jnull),
     ("durationMinutes", match t.getDurationInMinutes with
       | some d => .jnum d
       | none => .jnull)]

/-- `Task.fromJSON`: reads the record's properties without any checking
(`completed` through the truthiness default `obj.completed || false`,
`updatedAt` only when truthy). -/
def Task.fromJSON (obj : JValue) : Task :=
  { id := jGetStrD obj "id"
    description := jGetStrD obj "description"
    startTime := jGetStrD obj "startTime"
    endTime := jGetStrD obj "endTime"
    priority := jGetStrD obj "priority"
    completed := jsTruthy (jGet obj "completed")
    createdAt :=
      (match jGet obj "createdAt" with
       | some (.jstr s) => (decodeDate s).getD 0
       | _ => 0)
    updatedAt :=
      (match jGet obj "updatedAt" with
       | some (.jstr s) => decodeDate s
       | _ => none) }

/-- A value stored in an event's `data` payload.  The call sites of
`EventDataFactory` pass live `Task` references, `toJSON` snapshots, the raw
changeset, strings, numbers, and `error.stack` (whose runtime text is
opaque; it is represented by the error it belongs to). -/
inductive PValue where
  | ptask (t : Task)
  | pjson (j : JValue)
  | pupdate (u : TaskUpdate)
  | pstr (s : String)
  | pnum (n : Int)
  | pstack (e : Err)

/-- The `IEventData` record handed to observers: timestamp, optional
message, optional keyed payload, optional error. -/
structure EventData where
  timestamp : Nat
  message : Option String
  data : Option (List (String × PValue))
  error : Option Err

/-- An event as published: the `ScheduleEvent` kind string paired with its
`IEventData`. -/
abbrev Evt := String × EventData

/-- JS `message || error.message` (an empty string is falsy). -/
def jsOrElse (message : Option String) (dflt : String) : String :=
  match message with
  | some s => if s = "" then dflt else s
  | none => dflt

/-- `EventDataFactory.create`. -/
def EventDataFactory.create (now : Nat) (message : Option String)
    (data : Option (List (String × PValue))) (error : Option Err) : EventData :=
  ⟨now, message, data, error⟩

/-- `EventDataFactory.createError`: message defaults to the error's own
message; the payload carries the error's `name` and `stack`. -/
def EventDataFactory.createError (now : Nat) (e : Err) (message : Option String) : EventData :=
  ⟨now, some (jsOrElse message e.errorMessage),
    some [("errorName", .pstr e.errorName), ("errorStack", .pstack e)], some e⟩

/-- `EventDataFactory.createSuccess`. -/
def EventDataFactory.createSuccess (now : Nat) (message : String)
    (data : Option (List (String × PValue))) : EventData :=
  ⟨now, some message, data, none⟩

/-- `ValidationService.validateTask`: non-blank description, both time
formats, then the strict range, throwing in that order. -/
def validateTask (t : Task) : Except Err Unit :=
  if t.description = "" || jsTrim t.description = "" then
    .error (.invalidTaskDescription "Task description cannot be empty.")
  else
    match validateTimeFormat t.startTime with
    | .error e => .error e
    | .ok _ =>
      match validateTimeFormat t.endTime with
      | .error e => .error e
      | .ok _ => validateTimeRange t.startTime t.endTime

/-- `ValidationService.checkTaskOverlap`: scan the existing tasks in
order, skipping the candidate's own id, and return the first overlapping
one (errors from `doTimeRangesOverlap` propagate as in the source). -/
def checkTaskOverlap (newTask : Task) : List Task → Except Err (Option Task)
  | [] => .ok none
  | existingTask :: rest =>
    if existingTask.id = newTask.id then checkTaskOverlap newTask rest
    else
      match doTimeRangesOverlap newTask.startTime newTask.endTime
          existingTask.startTime existingTask.endTime with
      | .error e => .error e
      | .ok isOverlapping =>
        if isOverlapping then .ok (some existingTask)
        else checkTaskOverlap newTask rest

/-- JS `Map.prototype.set` keyed by task id: replace in place when the key
exists, append otherwise (insertion order preserved). -/
def mapSet (tasks : List Task) (t : Task) : List Task :=
  if tasks.any (fun u => u.id == t.id) then
    tasks.map (fun u => if u.id == t.id then t else u)
  else tasks ++ [t]

/-- JS `Map.prototype.delete` keyed by task id. -/
def mapDelete (tasks : List Task) (id : String) : List Task :=
  tasks.filter (fun u => u.id != id)

/-- Result of a manager operation: final task store, published events in
order, and the error the operation raised, if any. -/
structure OpResult where
  tasks : List Task
  events : List Evt
  error : Option Err

/-- The body of `ScheduleManager.addTask` inside the `try`: validate,
check for a conflict (publishing `TASK_CONFLICT` and throwing
`TaskConflictError` when one is found), else store and publish
`TASK_ADDED`. -/
def addTaskBody (now : Nat) (tasks : List Task) (task : Task) : OpResult :=
  match validateTask task with
  | .error e => ⟨tasks, [], some e⟩
  | .ok _ =>
    match checkTaskOverlap task tasks with
    | .error e => ⟨tasks, [], some e⟩
    | .ok (some conflictingTask) =>
      let eventData := EventDataFactory.create now
        (some ("Task \"" ++ task.description ++ "\" conflicts with \""
          ++ conflictingTask.description ++ "\""))
        (some [("newTask", .ptask task), ("existingTask", .ptask conflictingTask)]) none
      ⟨tasks, [("TASK_CONFLICT", eventData)],
        some (.taskConflict ("Task conflicts with existing task \""
          ++ conflictingTask.description ++ "\" (" ++ conflictingTask.startTime
          ++ "-" ++ conflictingTask.endTime ++ ")"))⟩
    | .ok none =>
      let eventData := EventDataFactory.createSuccess now
        ("Task \"" ++ task.description ++ "\" added successfully")
        (some [("task", .pjson task.toJSON)])
      ⟨mapSet tasks task, [("TASK_ADDED", eventData)], none⟩

/-- `ScheduleManager.addTask`: the body wrapped in the `catch` that
publishes `TASK_ADD_FAILED` carrying the error and re-throws it. -/
def addTask (now : Nat) (tasks : List Task) (task : Task) : OpResult :=
  let r := addTaskBody now tasks task
  match r.error with
  | none => r
  | some e =>
    let eventData := EventDataFactory.createError now e
      (some ("Failed to add task \"" ++ task.description ++ "\""))
    ⟨r.tasks, r.events ++ [("TASK_ADD_FAILED", eventData)], some e⟩

/-- `ScheduleManager.getTaskByDescription`: first stored task whose
description matches case-insensitively. -/
def getTaskByDescription (tasks : List Task) (description : String) : Option Task :=
  tasks.find? (fun t => jsToLower t.description == jsToLower description)

/-- `ScheduleManager.updateTask`: look up by id (throwing
`TaskNotFoundError`), build and validate a trial copy, check it against all
other tasks, and only on success apply the changes to the stored task. -/
def updateTask (now : Nat) (tasks : List Task) (taskId : String) (updates : TaskUpdate) :
    OpResult :=
  match tasks.find? (fun t => t.id == taskId) with
  | none => ⟨tasks, [], some (.taskNotFound ("Task with ID \"" ++ taskId ++ "\" not found"))⟩
  | some task =>
    let tempTask := (task.clone).update updates now
    match validateTask tempTask with
    | .error e => ⟨tasks, [], some e⟩
    | .ok _ =>
      let otherTasks := tasks.filter (fun t => t.id != taskId)
      match checkTaskOverlap tempTask otherTasks with
      | .error e => ⟨tasks, [], some e⟩
      | .ok (some conflictingTask) =>
        let eventData := EventDataFactory.create now
          (some ("Task update would conflict with \"" ++ conflictingTask.description ++ "\""))
          (some [("taskId", .pstr taskId), ("updatedTask", .pupdate updates),
            ("conflictingTask", .pjson conflictingTask.toJSON)]) none
        ⟨tasks, [("TASK_UPDATE_FAILED", eventData)],
          some (.taskConflict ("Update would conflict with task \""
            ++ conflictingTask.description ++ "\""))⟩
      | .ok none =>
        let stored := task.update updates now
        let eventData := EventDataFactory.createSuccess now
          ("Task \"" ++ stored.description ++ "\" updated successfully")
          (some [("taskId", .pstr taskId), ("task", .pjson stored.toJSON),
            ("updates", .pupdate updates)])
        ⟨mapSet tasks stored, [("TASK_UPDATED", eventData)], none⟩

/-- Result of `removeTask`: final store, published events, and the boolean
the method returns. -/
structure RemoveResult where
  tasks : List Task
  events : List Evt
  removed : Bool

/-- `ScheduleManager.removeTask`: look up by description; when absent,
return `false` with no event; when present, delete (which always succeeds
for a task just found in the map) and publish `TASK_REMOVED`. -/
def removeTask (now : Nat) (tasks : List Task) (description : String) : RemoveResult :=
  match getTaskByDescription tasks description with
  | none => ⟨tasks, [], false⟩
  | some task =>
    let eventData := EventDataFactory.createSuccess now
      ("Task \"" ++ description ++ "\" removed successfully")
      (some [("taskId", .pstr task.id), ("task", .pjson task.toJSON)])
    ⟨mapDelete tasks task.id, [("TASK_REMOVED", eventData)], true⟩

/-- `ScheduleManager.markTaskCompleted`: look up by description (throwing
`TaskNotFoundError`), flip the flag in place, publish `TASK_COMPLETED`. -/
def markTaskCompleted (now : Nat) (tasks : List Task) (description : String) : OpResult :=
  match getTaskByDescription tasks description with
  | none => ⟨tasks, [], some (.taskNotFound ("Task \"" ++ description ++ "\" not found"))⟩
  | some task =>
    let done := task.markCompleted now
    let eventData := EventDataFactory.createSuccess now
      ("Task \"" ++ description ++ "\" marked as completed")
      (some [("task", .pjson done.toJSON)])
    ⟨mapSet tasks done, [("TASK_COMPLETED", eventData)], none⟩

/-- `ScheduleManager.clearAllTasks`. -/
def clearAllTasks (now : Nat) (tasks : List Task) : OpResult :=
  let taskCount := tasks.length
  let eventData := EventDataFactory.createSuccess now
    ("Schedule cleared. " ++ toString taskCount ++ " tasks removed.")
    (some [("removedCount", .pnum taskCount)])
  ⟨[], [("SCHEDULE_CLEARED", eventData)], none⟩

/-- Stable insertion into a list sorted by the minute key (equal keys keep
their existing order, matching the stable JS `Array.prototype.sort`). -/
def insertSorted (p : Nat × Task) : List (Nat × Task) → List (Nat × Task)
  | [] => [p]
  | q :: rest => if p.1 ≤ q.1 then p :: q :: rest else q :: insertSorted p rest

/-- Pair every task with its start-time minute key, throwing the error
`timeToMinutes` raises on a malformed time (the comparator inside the JS
sort evaluates the same expression; its on-demand evaluation order is
abstracted to an up-front pass). -/
def keyedByStart : List Task → Except Err (List (Nat × Task))
  | [] => .ok []
  | t :: rest => do
    let k ← timeToMinutesE t.startTime
    let ks ← keyedByStart rest
    .ok ((k, t) :: ks)

/-- `ScheduleManager.getAllTasks`: all tasks stably sorted ascending by
start time. -/
def getAllTasks (tasks : List Task) : Except Err (List Task) := do
  let ks ← keyedByStart tasks
  .ok ((ks.foldr insertSorted []).map Prod.snd)

/-- `ScheduleManager.exportToJSON`: the sorted tasks' `toJSON` snapshots
as a JSON array (the `JSON.stringify` text itself is not re-modelled). -/
def exportToJSON (tasks : List Task) : Except Err JValue := do
  let sorted ← getAllTasks tasks
  .ok (.jarr (sorted.map Task.toJSON))

/-- The per-record loop of `ScheduleManager.importFromJSON`: revive each
record, validate it, store it; the first validation error aborts the loop
with the store as accumulated so far. -/
def importTasksLoop (tasks : List Task) : List JValue → List Task × Option Err
  | [] => (tasks, none)
  | taskData :: rest =>
    let task := Task.fromJSON taskData
    match validateTask task with
    | .error e => (tasks, some e)
    | .ok _ => importTasksLoop (mapSet tasks task) rest

/-- `ScheduleManager.importFromJSON` on an already-parsed document: a
non-array throws before anything is touched; otherwise the store is
cleared first and the records are imported one by one, so a mid-loop
validation failure leaves the partially imported store in place (the
`catch` only logs and re-throws). -/
def importFromJSON (now : Nat) (tasks : List Task) (json : JValue) : OpResult :=
  match json with
  | .jarr tasksData =>
    (match importTasksLoop [] tasksData with
     | (imported, some e) => ⟨imported, [], some e⟩
     | (imported, none) =>
       let n := tasksData.length
       let eventData := EventDataFactory.createSuccess now
         ("Imported " ++ toString n ++ " tasks successfully")
         (some [("importedCount", .pnum n)])
       ⟨imported, [("SCHEDULE_IMPORTED", eventData)], none⟩)
  | _ => ⟨tasks, [], some (.genericError "JSON must contain an array of tasks")⟩

/-- An attached observer (`IObserver`): its name, whether the optional
`isInterestedIn` method is present, that predicate, and the behaviour of
its `update` handler (`.error` models a thrown exception, carrying the
message). -/
structure Observer where
  name : String
  hasInterestedIn : Bool
  interestedIn : String → Bool
  updateResult : String → EventData → Except String Unit

/-- The skip test inside `ScheduleManager.notify`:
`observer.isInterestedIn && !observer.isInterestedIn(event)`. -/
def observerSkips (o : Observer) (event : String) : Bool :=
  o.hasInterestedIn && !(o.interestedIn event)

/-- `ScheduleManager.notify`: walk the observer list in attachment order;
each `update` call sits in its own `try`/`catch`, so a thrown handler is
logged (recorded here as the `Option String`) and the walk continues.  The
returned list records, in order, every observer actually invoked and what
its handler did. -/
def notifyAll : List Observer → String → EventData → List (String × Option String)
  | [], _, _ => []
  | o :: rest, event, d =>
    if observerSkips o event then notifyAll rest event d
    else
      match o.updateResult event d with
      | .ok _ => (o.name, none) :: notifyAll rest event d
      | .error err => (o.name, some err) :: notifyAll rest event d

/-- Dispatch of a whole event trace through `notify`, in publication
order. -/
def dispatchEvents (os : List Observer) : List Evt → List (String × Option String)
  | [] => []
  | (event, d) :: rest => notifyAll os event d ++ dispatchEvents os rest

/-- `addTask` as experienced by a caller with observers attached: the
operation's own outcome together with the notification record. -/
def runAddTask (os : List Observer) (now : Nat) (tasks : List Task) (task : Task) :
    OpResult × List (String × Option String) :=
  let r := addTask now tasks task
  (r, dispatchEvents os r.events)

/-- Fixture: a valid task, 09:00-10:00. -/
def taskA : Task := ⟨"TASK-1", "Morning Exercise", "09:00", "10:00", "High", false, 0, none⟩

/-- Fixture: a valid task touching `taskA` at the boundary, 10:00-11:00. -/
def taskB : Task := ⟨"TASK-2", "Team Meeting", "10:00", "11:00", "Medium", false, 0, none⟩

/-- Fixture: a valid task overlapping both `taskA` and `taskB`,
09:30-10:30. -/
def taskC : Task := ⟨"TASK-3", "Crew Sync", "09:30", "10:30", "Low", false, 0, none⟩

/-- Fixture: an overlapping candidate with a blank description (fails
structural validation although its interval conflicts). -/
def taskBlank : Task := ⟨"TASK-4", "", "09:30", "10:30", "Low", false, 0, none⟩

example : validateTask taskA = .ok () := rfl

example : validateTask taskBlank = .error (.invalidTaskDescription "Task description cannot be empty.") := rfl

example : timeToMinutes? "09:30" = some 570 := rfl

example : doTimeRangesOverlap "09:00" "10:00" "10:00" "11:00" = .ok false := rfl

example : doTimeRangesOverlap "09:00" "10:00" "09:30" "10:30" = .ok true := rfl

example : (addTask 5 [taskA] taskC).events.map Prod.fst = ["TASK_CONFLICT", "TASK_ADD_FAILED"] := rfl

example : (addTask 5 [taskA] taskB).error = none := rfl

example : (importFromJSON 0 [] (.jarr [taskA.toJSON, taskC.toJSON])).error = none := rfl

example : (importFromJSON 0 [] (.jarr [taskA.toJSON, taskC.toJSON])).tasks.length = 2 := rfl

/-! Parsing lemmas: a string accepted by the `HH:MM` regex is converted by
`timeToMinutes` without hitting the `NaN` fallback. -/

theorem isDigit_ne_colon {c : Char} (h : c.isDigit = true) : c ≠ ':' :=
  fun heq => absurd (heq ▸ h) (by decide)

theorem splitColon_hhmm {h1 h2 m1 m2 : Char} (hh1 : h1 ≠ ':') (hh2 : h2 ≠ ':')
    (hm1 : m1 ≠ ':') (hm2 : m2 ≠ ':') :
    splitColon [h1, h2, ':', m1, m2] = [[h1, h2], [m1, m2]] := by
  simp [splitColon, hh1, hh2, hm1, hm2]

theorem parseIntJS_two_digits {c1 c2 : Char} (d1 : c1.isDigit = true)
    (d2 : c2.isDigit = true) :
    parseIntJS [c1, c2] = some ((c1.toNat - 48) * 10 + (c2.toNat - 48)) := by
  simp [parseIntJS, parseDigitsAux, d1, d2]

theorem timeToMinutes_of_validFormat {s : String} (h : isValidTimeFormat s = true) :
    ∃ n, timeToMinutes? s = some n := by
  simp only [isValidTimeFormat] at h
  rcases hs : s.data with _ | ⟨h1, _ | ⟨h2, _ | ⟨c, _ | ⟨m1, _ | ⟨m2, _ | ⟨x, xs⟩⟩⟩⟩⟩⟩ <;>
    rw [hs] at h
  case cons.cons.cons.cons.cons.nil =>
    simp only [Bool.and_eq_true, Bool.or_eq_true, decide_eq_true_eq] at h
    obtain ⟨⟨⟨hhour, hc⟩, hm1r⟩, hm2d⟩ := h
    subst hc
    have hd1 : h1.isDigit = true := by
      rcases hhour with ⟨h01 | h01, _⟩ | ⟨h2eq, _⟩ <;> subst_vars <;> decide
    have hd2 : h2.isDigit = true := by
      rcases hhour with ⟨_, hdig⟩ | ⟨_, ((he | he) | he) | he⟩ <;> subst_vars <;>
        first | assumption | decide
    have hdm1 : m1.isDigit = true := by
      rcases hm1r with ((((he | he) | he) | he) | he) | he <;> subst_vars <;> decide
    refine ⟨((h1.toNat - 48) * 10 + (h2.toNat - 48)) * 60
      + ((m1.toNat - 48) * 10 + (m2.toNat - 48)), ?_⟩
    simp only [timeToMinutes?]
    rw [hs, splitColon_hhmm (isDigit_ne_colon hd1) (isDigit_ne_colon hd2)
      (isDigit_ne_colon hdm1) (isDigit_ne_colon hm2d)]
    simp [parseIntJS_two_digits hd1 hd2, parseIntJS_two_digits hdm1 hm2d]
  all_goals simp at h

/-- C5: for valid `HH:MM` times, `doTimeRangesOverlap` is exactly the
half-open overlap test `toMinutes s1 < toMinutes e2 ∧ toMinutes s2 <
toMinutes e1`; it is symmetric in the two intervals and returns false when
the intervals merely touch at a boundary. -/
theorem c5_doTimeRangesOverlap_characterization
    (s1 e1 s2 e2 : String)
    (v1 : isValidTimeFormat s1 = true) (v2 : isValidTimeFormat e1 = true)
    (v3 : isValidTimeFormat s2 = true) (v4 : isValidTimeFormat e2 = true) :
    ∃ a b c d,
      timeToMinutes? s1 = some a ∧ timeToMinutes? e1 = some b ∧
      timeToMinutes? s2 = some c ∧ timeToMinutes? e2 = some d ∧
      doTimeRangesOverlap s1 e1 s2 e2 = .ok (decide (a < d) && decide (c < b)) ∧
      doTimeRangesOverlap s1 e1 s2 e2 = doTimeRangesOverlap s2 e2 s1 e1 ∧
      (b = c → doTimeRangesOverlap s1 e1 s2 e2 = .ok false) ∧
      (d = a → doTimeRangesOverlap s1 e1 s2 e2 = .ok false) := by
  obtain ⟨a, ha⟩ := timeToMinutes_of_validFormat v1
  obtain ⟨b, hb⟩ := timeToMinutes_of_validFormat v2
  obtain ⟨c, hc⟩ := timeToMinutes_of_validFormat v3
  obtain ⟨d, hd⟩ := timeToMinutes_of_validFormat v4
  have key : ∀ x y z w : String, ∀ xv yv zv wv : Nat,
      timeToMinutes? x = some xv → timeToMinutes? y = some yv →
      timeToMinutes? z = some zv → timeToMinutes? w = some wv →
      doTimeRangesOverlap x y z w = .ok (decide (xv < wv) && decide (zv < yv)) := by
    intro x y z w xv yv zv wv hx hy hz hw
    simp only [doTimeRangesOverlap, timeToMinutesE, hx, hy, hz, hw]
  refine ⟨a, b, c, d, ha, hb, hc, hd, key _ _ _ _ _ _ _ _ ha hb hc hd, ?_, ?_, ?_⟩
  · rw [key _ _ _ _ _ _ _ _ ha hb hc hd, key _ _ _ _ _ _ _ _ hc hd ha hb,
      Bool.and_comm]
  · intro hbc
    rw [key _ _ _ _ _ _ _ _ ha hb hc hd]
    subst hbc
    simp
  · intro hda
    rw [key _ _ _ _ _ _ _ _ ha hb hc hd]
    subst hda
    simp

theorem c5_witness :
    isValidTimeFormat "09:00" = true ∧ isValidTimeFormat "10:00" = true ∧
    isValidTimeFormat "10:00" = true ∧ isValidTimeFormat "11:00" = true ∧
    (∃ a b c d,
      timeToMinutes? "09:00" = some a ∧ timeToMinutes? "10:00" = some b ∧
      timeToMinutes? "10:00" = some c ∧ timeToMinutes? "11:00" = some d ∧
      doTimeRangesOverlap "09:00" "10:00" "10:00" "11:00"
        = .ok (decide (a < d) && decide (c < b)) ∧
      doTimeRangesOverlap "09:00" "10:00" "10:00" "11:00"
        = doTimeRangesOverlap "10:00" "11:00" "09:00" "10:00" ∧
      (b = c → doTimeRangesOverlap "09:00" "10:00" "10:00" "11:00" = .ok false) ∧
      (d = a → doTimeRangesOverlap "09:00" "10:00" "10:00" "11:00" = .ok false)) :=
  ⟨rfl, rfl, rfl, rfl,
    c5_doTimeRangesOverlap_characterization "09:00" "10:00" "10:00" "11:00" rfl rfl rfl rfl⟩

/-! The no-overlap invariant and its preservation by the manager's
operations. -/

/-- Overlap of two stored tasks as a boolean (a `doTimeRangesOverlap`
throw counts as no detected overlap). -/
def tasksOverlapB (t1 t2 : Task) : Bool :=
  match doTimeRangesOverlap t1.startTime t1.endTime t2.startTime t2.endTime with
  | .ok b => b
  | .error _ => false

/-- The schedule invariant of the spec: no two distinct stored tasks have
overlapping half-open intervals. -/
def noOverlapInvariant (tasks : List Task) : Prop :=
  ∀ t1 ∈ tasks, ∀ t2 ∈ tasks, t1.id ≠ t2.id → tasksOverlapB t1 t2 = false

theorem except_bind_ok {α β : Type} (a : α) (f : α → Except Err β) :
    (Except.ok a >>= f) = f a := rfl

theorem except_bind_err {α β : Type} (e : Err) (f : α → Except Err β) :
    ((Except.error e : Except Err α) >>= f) = Except.error e := rfl

theorem tasksOverlapB_symm (t1 t2 : Task) : tasksOverlapB t1 t2 = tasksOverlapB t2 t1 := by
  unfold tasksOverlapB doTimeRangesOverlap
  rcases h1 : timeToMinutesE t1.startTime with e1 | a <;>
    rcases h2 : timeToMinutesE t1.endTime with e2 | b <;>
      rcases h3 : timeToMinutesE t2.startTime with e3 | c <;>
        rcases h4 : timeToMinutesE t2.endTime with e4 | d <;>
          simp [h1, h2, h3, h4, Bool.and_comm]

/-- Start and end times alone determine the overlap test. -/
theorem tasksOverlapB_congr_left {t1 t1' t2 : Task}
    (hs : t1'.startTime = t1.startTime) (he : t1'.endTime = t1.endTime) :
    tasksOverlapB t1' t2 = tasksOverlapB t1 t2 := by
  unfold tasksOverlapB
  rw [hs, he]

/-- Soundness of the conflict scan: an `ok none` verdict means the
candidate overlaps no existing task with a different id. -/
theorem checkTaskOverlap_ok_none {newTask : Task} :
    ∀ {l : List Task}, checkTaskOverlap newTask l = .ok none →
      ∀ u ∈ l, u.id ≠ newTask.id → tasksOverlapB newTask u = false := by
  intro l
  induction l with
  | nil => intro _ u hu; simp at hu
  | cons v rest ih =>
    intro h u hu hne
    unfold checkTaskOverlap at h
    by_cases hid : v.id = newTask.id
    · rw [if_pos hid] at h
      rcases List.mem_cons.mp hu with rfl | hu2
      · exact absurd hid hne
      · exact ih h u hu2 hne
    · rw [if_neg hid] at h
      rcases hov : doTimeRangesOverlap newTask.startTime newTask.endTime
          v.startTime v.endTime with e | bov
      · rw [hov] at h
        simp at h
      · rw [hov] at h
        cases bov with
        | true => simp at h
        | false =>
          simp at h
          rcases List.mem_cons.mp hu with rfl | hu2
          · unfold tasksOverlapB
            rw [hov]
          · exact ih h u hu2 hne

/-- Membership in a `mapSet` result: the new task, or an old one with a
different id. -/
theorem mem_mapSet {tasks : List Task} {t x : Task} (hx : x ∈ mapSet tasks t) :
    x = t ∨ (x ∈ tasks ∧ x.id ≠ t.id) := by
  unfold mapSet at hx
  by_cases hany : tasks.any (fun u => u.id == t.id) = true
  · rw [if_pos hany] at hx
    rcases List.mem_map.mp hx with ⟨u, hu, heq⟩
    by_cases hid : u.id = t.id
    · left
      rw [if_pos (by simpa using hid)] at heq
      exact heq.symm
    · right
      rw [if_neg (by simpa using hid)] at heq
      exact heq ▸ ⟨hu, hid⟩
  · rw [if_neg hany] at hx
    rcases List.mem_append.mp hx with hx2 | hx2
    · right
      refine ⟨hx2, fun hEq => hany ?_⟩
      exact List.any_eq_true.mpr ⟨x, hx2, by simpa using hEq⟩
    · left
      simpa using hx2

theorem noOverlapInvariant_mapSet {tasks : List Task} {t : Task}
    (hinv : noOverlapInvariant tasks)
    (hnew : ∀ u ∈ tasks, u.id ≠ t.id → tasksOverlapB t u = false) :
    noOverlapInvariant (mapSet tasks t) := by
  intro x hx y hy hne
  rcases mem_mapSet hx with rfl | ⟨hxmem, hxid⟩
  · rcases mem_mapSet hy with rfl | ⟨hymem, hyid⟩
    · exact absurd rfl hne
    · exact hnew y hymem hyid
  · rcases mem_mapSet hy with rfl | ⟨hymem, hyid⟩
    · rw [tasksOverlapB_symm]
      exact hnew x hxmem hxid
    · exact hinv x hxmem y hymem hne

theorem noOverlapInvariant_subset {l1 l2 : List Task}
    (hsub : ∀ x ∈ l1, x ∈ l2) (hinv : noOverlapInvariant l2) : noOverlapInvariant l1 :=
  fun x hx y hy hne => hinv x (hsub x hx) y (hsub y hy) hne

theorem noOverlapInvariant_nil : noOverlapInvariant [] := by
  intro x hx
  simp at hx

theorem addTask_preserves_invariant (now : Nat) (tasks : List Task) (t : Task)
    (hinv : noOverlapInvariant tasks) : noOverlapInvariant (addTask now tasks t).tasks := by
  unfold addTask addTaskBody
  rcases hv : validateTask t with e | u
  · simpa [hv] using hinv
  · rcases hc : checkTaskOverlap t tasks with e | oc
    · simpa [hv, hc] using hinv
    · rcases oc with _ | c
      · simp only [hv, hc]
        exact noOverlapInvariant_mapSet hinv (checkTaskOverlap_ok_none hc)
      · simpa [hv, hc] using hinv

theorem updateTask_preserves_invariant (now : Nat) (tasks : List Task) (taskId : String)
    (u : TaskUpdate) (hinv : noOverlapInvariant tasks) :
    noOverlapInvariant (updateTask now tasks taskId u).tasks := by
  unfold updateTask
  rcases hf : tasks.find? (fun t => t.id == taskId) with _ | task
  · simpa [hf] using hinv
  · have hid : task.id = taskId := by simpa using List.find?_some hf
    rcases hv : validateTask ((task.clone).update u now) with e | uu
    · simpa [hf, hv] using hinv
    · rcases hc : checkTaskOverlap ((task.clone).update u now)
          (tasks.filter (fun t => t.id != taskId)) with e | oc
      · simpa [hf, hv, hc] using hinv
      · rcases oc with _ | c
        · simp only [hf, hv, hc]
          refine noOverlapInvariant_mapSet hinv ?_
          intro v hvmem hvid
          have hvid2 : v.id ≠ taskId := by
            intro hEq
            exact hvid (hEq.trans hid.symm)
          have hmemf : v ∈ tasks.filter (fun t => t.id != taskId) :=
            List.mem_filter.mpr ⟨hvmem, by simpa using hvid2⟩
          exact checkTaskOverlap_ok_none hc v hmemf hvid
        · simpa [hf, hv, hc] using hinv

theorem removeTask_preserves_invariant (now : Nat) (tasks : List Task) (d : String)
    (hinv : noOverlapInvariant tasks) : noOverlapInvariant (removeTask now tasks d).tasks := by
  unfold removeTask
  rcases getTaskByDescription tasks d with _ | task
  · simpa using hinv
  · simp only [mapDelete]
    exact noOverlapInvariant_subset (fun x hx => (List.mem_filter.mp hx).1) hinv

theorem markTaskCompleted_preserves_invariant (now : Nat) (tasks : List Task) (d : String)
    (hinv : noOverlapInvariant tasks) :
    noOverlapInvariant (markTaskCompleted now tasks d).tasks := by
  unfold markTaskCompleted
  rcases hf : getTaskByDescription tasks d with _ | task
  · simpa using hinv
  · have hmem : task ∈ tasks := List.mem_of_find?_eq_some hf
    simp only
    refine noOverlapInvariant_mapSet hinv ?_
    intro v hvmem hvid
    have hco : tasksOverlapB (task.markCompleted now) v = tasksOverlapB task v :=
      @tasksOverlapB_congr_left task (task.markCompleted now) v rfl rfl
    rw [hco]
    exact hinv task hmem v hvmem (fun hEq => hvid hEq.symm)

theorem clearAllTasks_preserves_invariant (now : Nat) (tasks : List Task) :
    noOverlapInvariant (clearAllTasks now tasks).tasks :=
  noOverlapInvariant_nil

/-- The tasks decoded from an import document (empty for a non-array). -/
def decodedTasks : JValue → List Task
  | .jarr records => records.map Task.fromJSON
  | _ => []

theorem importTasksLoop_mem {records : List JValue} :
    ∀ {acc : List Task} {x : Task}, x ∈ (importTasksLoop acc records).1 →
      x ∈ acc ∨ x ∈ records.map Task.fromJSON := by
  induction records with
  | nil => intro acc x hx; exact Or.inl hx
  | cons r rest ih =>
    intro acc x hx
    rcases hval : validateTask (Task.fromJSON r) with e | uu
    · simp only [importTasksLoop, hval] at hx
      exact Or.inl hx
    · simp only [importTasksLoop, hval] at hx
      rcases ih hx with hacc | hrec
      · rcases mem_mapSet hacc with rfl | ⟨hmem, _⟩
        · right; simp
        · exact Or.inl hmem
      · right; simp [hrec]

theorem importFromJSON_preserves_invariant (now : Nat) (tasks : List Task) (j : JValue)
    (hinv : noOverlapInvariant tasks) (hdec : noOverlapInvariant (decodedTasks j)) :
    noOverlapInvariant (importFromJSON now tasks j).tasks := by
  rcases j with _ | b | n | s | records | fields
  case jarr =>
    have hsub : ∀ x ∈ (importTasksLoop [] records).1, x ∈ records.map Task.fromJSON := by
      intro x hx
      rcases importTasksLoop_mem hx with hemp | hrec
      · simp at hemp
      · exact hrec
    have hres : noOverlapInvariant (importTasksLoop [] records).1 :=
      noOverlapInvariant_subset hsub (by simpa [decodedTasks] using hdec)
    simp only [importFromJSON]
    rcases hloop : importTasksLoop [] records with ⟨imported, oe⟩
    have hres2 : noOverlapInvariant imported := by
      rw [hloop] at hres
      simpa using hres
    rcases oe with _ | e <;> simpa using hres2
  all_goals simpa [importFromJSON] using hinv

instance (tasks : List Task) : Decidable (noOverlapInvariant tasks) := by
  unfold noOverlapInvariant
  infer_instance

/-- States reachable from the empty schedule via the six public mutating
operations, `importFromJSON` included with arbitrary documents. -/
inductive Reachable : List Task → Prop where
  | empty : Reachable []
  | step_add (now : Nat) (s : List Task) (t : Task) :
      Reachable s → Reachable (addTask now s t).tasks
  | step_update (now : Nat) (s : List Task) (id : String) (u : TaskUpdate) :
      Reachable s → Reachable (updateTask now s id u).tasks
  | step_remove (now : Nat) (s : List Task) (d : String) :
      Reachable s → Reachable (removeTask now s d).tasks
  | step_complete (now : Nat) (s : List Task) (d : String) :
      Reachable s → Reachable (markTaskCompleted now s d).tasks
  | step_clear (now : Nat) (s : List Task) :
      Reachable s → Reachable (clearAllTasks now s).tasks
  | step_import (now : Nat) (s : List Task) (j : JValue) :
      Reachable s → Reachable (importFromJSON now s j).tasks

/-- Reachability as above, but with `importFromJSON` restricted to
documents whose decoded records are themselves pairwise
non-overlapping. -/
inductive ReachableSafe : List Task → Prop where
  | empty : ReachableSafe []
  | step_add (now : Nat) (s : List Task) (t : Task) :
      ReachableSafe s → ReachableSafe (addTask now s t).tasks
  | step_update (now : Nat) (s : List Task) (id : String) (u : TaskUpdate) :
      ReachableSafe s → ReachableSafe (updateTask now s id u).tasks
  | step_remove (now : Nat) (s : List Task) (d : String) :
      ReachableSafe s → ReachableSafe (removeTask now s d).tasks
  | step_complete (now : Nat) (s : List Task) (d : String) :
      ReachableSafe s → ReachableSafe (markTaskCompleted now s d).tasks
  | step_clear (now : Nat) (s : List Task) :
      ReachableSafe s → ReachableSafe (clearAllTasks now s).tasks
  | step_import (now : Nat) (s : List Task) (j : JValue) :
      ReachableSafe s → noOverlapInvariant (decodedTasks j) →
      ReachableSafe (importFromJSON now s j).tasks

/-- An import document holding two individually valid but mutually
overlapping records. -/
def overlapImportDoc : JValue := .jarr [taskA.toJSON, taskC.toJSON]

/-- The state `importFromJSON` installs from `overlapImportDoc`. -/
def overlapState : List Task := (importFromJSON 0 [] overlapImportDoc).tasks

/-- C1, counterexample: a state holding two distinct overlapping tasks is
reachable from the empty schedule — `importFromJSON` validates records
individually but never re-checks pairwise overlap, so the claimed
invariant fails over the six listed operations. -/
theorem c1_counterexample_overlap_reachable :
    Reachable overlapState ∧ ¬ noOverlapInvariant overlapState :=
  ⟨Reachable.step_import 0 [] overlapImportDoc Reachable.empty, by decide⟩

/-- C1, amended: every pair of distinct stored tasks has non-overlapping
half-open intervals in every state reachable from the empty schedule via
addTask, updateTask, removeTask, markTaskCompleted, clearAllTasks, and
those importFromJSON calls whose decoded record set is itself pairwise
non-overlapping. -/
theorem c1_no_overlap_invariant_reachable (s : List Task) (h : ReachableSafe s) :
    noOverlapInvariant s := by
  induction h with
  | empty => exact noOverlapInvariant_nil
  | step_add now s t _ ih => exact addTask_preserves_invariant now s t ih
  | step_update now s id u _ ih => exact updateTask_preserves_invariant now s id u ih
  | step_remove now s d _ ih => exact removeTask_preserves_invariant now s d ih
  | step_complete now s d _ ih => exact markTaskCompleted_preserves_invariant now s d ih
  | step_clear now s _ ih => exact clearAllTasks_preserves_invariant now s
  | step_import now s j _ hdec ih => exact importFromJSON_preserves_invariant now s j ih hdec

theorem c1_witness :
    ReachableSafe (addTask 1 (addTask 0 [] taskA).tasks taskB).tasks ∧
    noOverlapInvariant (addTask 1 (addTask 0 [] taskA).tasks taskB).tasks :=
  ⟨ReachableSafe.step_add 1 (addTask 0 [] taskA).tasks taskB
      (ReachableSafe.step_add 0 [] taskA ReachableSafe.empty),
   c1_no_overlap_invariant_reachable _
      (ReachableSafe.step_add 1 (addTask 0 [] taskA).tasks taskB
        (ReachableSafe.step_add 0 [] taskA ReachableSafe.empty))⟩

/-! Claim C2: behaviour of `importFromJSON` on array documents. -/

/-- Whether one record survives `Task.fromJSON` + `validateTask`. -/
def recordValid (d : JValue) : Bool :=
  match validateTask (Task.fromJSON d) with
  | .ok _ => true
  | .error _ => false

theorem importFromJSON_jarr_eq (now : Nat) (tasks : List Task) (records : List JValue) :
    (importFromJSON now tasks (.jarr records)).tasks = (importTasksLoop [] records).1 ∧
    (importFromJSON now tasks (.jarr records)).error = (importTasksLoop [] records).2 := by
  simp only [importFromJSON]
  rcases hl : importTasksLoop [] records with ⟨imported, _ | e⟩ <;> simp

theorem importTasksLoop_spec (records : List JValue) :
    ∀ acc : List Task,
      (importTasksLoop acc records).1
        = (((records.takeWhile recordValid).map Task.fromJSON).foldl mapSet acc) ∧
      ((importTasksLoop acc records).2 = none ↔ records.all recordValid = true) := by
  induction records with
  | nil => intro acc; simp [importTasksLoop]
  | cons r rest ih =>
    intro acc
    rcases hval : validateTask (Task.fromJSON r) with e | uu
    · have hrv : recordValid r = false := by simp [recordValid, hval]
      simp [importTasksLoop, hval, hrv]
    · have hrv : recordValid r = true := by simp [recordValid, hval]
      simp only [importTasksLoop, hval, List.takeWhile_cons, hrv, if_true,
        List.map_cons, List.foldl_cons, List.all_cons, Bool.true_and]
      exact ih (mapSet acc (Task.fromJSON r))

/-- C2, amended: importFromJSON on an array document replaces the schedule
wholesale (the result is independent of the previously stored tasks) and
revalidates every record individually, but it does not re-check pairwise
non-overlap, and a failing record does not restore the previous schedule:
the store is left holding exactly the records before the first invalid
one.  The import succeeds without error exactly when every record
validates. -/
theorem c2_import_not_atomic (now : Nat) (tasks : List Task) (records : List JValue) :
    (importFromJSON now tasks (.jarr records)).tasks
      = (((records.takeWhile recordValid).map Task.fromJSON).foldl mapSet []) ∧
    ((importFromJSON now tasks (.jarr records)).error = none
      ↔ records.all recordValid = true) := by
  obtain ⟨ht, he⟩ := importFromJSON_jarr_eq now tasks records
  obtain ⟨ht2, he2⟩ := importTasksLoop_spec records []
  exact ⟨ht.trans ht2, he ▸ he2⟩

/-- C2, counterexample: with `taskA` stored, importing a document whose
first record is valid and whose second is invalid fails, yet the resulting
store is the partially imported `[taskB]`, not the prior `[taskA]` — the
importing is not all-or-nothing and the previous schedule is not left
intact. -/
theorem c2_counterexample_partial_import :
    (importFromJSON 0 [taskA] (.jarr [taskB.toJSON, taskBlank.toJSON])).error
        = some (.invalidTaskDescription "Task description cannot be empty.") ∧
    (importFromJSON 0 [taskA] (.jarr [taskB.toJSON, taskBlank.toJSON])).tasks = [taskB] ∧
    [taskB] ≠ [taskA] :=
  ⟨rfl, by decide, by decide⟩

/-! Claim C3: conflicting updates. -/

/-- A changeset that both blanks the description and moves the start into
`taskA`'s interval. -/
def blankOverlapUpdate : TaskUpdate := ⟨some " ", some "09:30", none, none, none⟩

/-- A changeset that only moves the start into `taskA`'s interval. -/
def overlapOnlyUpdate : TaskUpdate := ⟨none, some "09:30", none, none, none⟩

/-- C3, counterexample: with `taskA` and `taskB` stored, updating `taskB`
with a changeset whose trial copy overlaps `taskA` but fails structural
validation (blank description) produces a validation error and publishes
no event at all — no `TASK_UPDATE_FAILED`, no conflict error — because
`updateTask` validates the trial copy before running the conflict check. -/
theorem c3_counterexample_validation_preempts_conflict :
    tasksOverlapB ((taskB.clone).update blankOverlapUpdate 5) taskA = true ∧
    taskA ∈ [taskA, taskB] ∧ taskA.id ≠ taskB.id ∧
    (updateTask 5 [taskA, taskB] "TASK-2" blankOverlapUpdate).events = [] ∧
    (updateTask 5 [taskA, taskB] "TASK-2" blankOverlapUpdate).error
      = some (.invalidTaskDescription "Task description cannot be empty.") :=
  ⟨rfl, by decide, by decide, rfl, rfl⟩

/-- C3, amended: for every stored task id and every changeset whose trial
copy passes structural validation and conflicts with some other stored
task, updateTask publishes exactly one `TASK_UPDATE_FAILED` event, fails
with the `TaskConflictError`, and leaves the whole store — in particular
the stored task — completely unmodified. -/
theorem c3_conflicting_update_all_or_nothing (now : Nat) (tasks : List Task)
    (taskId : String) (u : TaskUpdate) (task c : Task)
    (hf : tasks.find? (fun t => t.id == taskId) = some task)
    (hv : validateTask ((task.clone).update u now) = .ok ())
    (hc : checkTaskOverlap ((task.clone).update u now)
        (tasks.filter (fun t => t.id != taskId)) = .ok (some c)) :
    (updateTask now tasks taskId u).tasks = tasks ∧
    (updateTask now tasks taskId u).events.map Prod.fst = ["TASK_UPDATE_FAILED"] ∧
    (updateTask now tasks taskId u).error
      = some (.taskConflict ("Update would conflict with task \""
          ++ c.description ++ "\"")) := by
  simp [updateTask, hf, hv, hc]

theorem c3_witness :
    ([taskA, taskB].find? (fun t => t.id == "TASK-2") = some taskB) ∧
    validateTask ((taskB.clone).update overlapOnlyUpdate 7) = .ok () ∧
    checkTaskOverlap ((taskB.clone).update overlapOnlyUpdate 7)
        ([taskA, taskB].filter (fun t => t.id != "TASK-2")) = .ok (some taskA) ∧
    ((updateTask 7 [taskA, taskB] "TASK-2" overlapOnlyUpdate).tasks = [taskA, taskB] ∧
      (updateTask 7 [taskA, taskB] "TASK-2" overlapOnlyUpdate).events.map Prod.fst
        = ["TASK_UPDATE_FAILED"] ∧
      (updateTask 7 [taskA, taskB] "TASK-2" overlapOnlyUpdate).error
        = some (.taskConflict ("Update would conflict with task \""
            ++ taskA.description ++ "\""))) :=
  ⟨rfl, rfl, rfl,
    c3_conflicting_update_all_or_nothing 7 [taskA, taskB] "TASK-2" overlapOnlyUpdate
      taskB taskA rfl rfl rfl⟩

/-! Claim C4: conflicting adds, and the pairing of the raised
`TaskConflictError` with the published `TASK_CONFLICT` event.
The shape lemmas show that no validation path can masquerade as a
conflict. -/

theorem timeToMinutesE_error_shape {s : String} {e : Err}
    (h : timeToMinutesE s = .error e) : ∃ m, e = .invalidTimeFormat m := by
  unfold timeToMinutesE at h
  rcases ht : timeToMinutes? s with _ | n <;> rw [ht] at h
  · simp only [Except.error.injEq] at h
    exact ⟨_, h.symm⟩
  · simp at h

theorem validateTimeFormat_error_shape {s : String} {e : Err}
    (h : validateTimeFormat s = .error e) : ∃ m, e = .invalidTimeFormat m := by
  unfold validateTimeFormat at h
  split at h
  · simp at h
  · simp only [Except.error.injEq] at h
    exact ⟨_, h.symm⟩

theorem validateTimeRange_error_shape {s1 s2 : String} {e : Err}
    (h : validateTimeRange s1 s2 = .error e) :
    (∃ m, e = .invalidTimeFormat m) ∨ (∃ m, e = .invalidTimeRange m) := by
  unfold validateTimeRange at h
  split at h
  · rename_i e1 heq
    simp only [Except.error.injEq] at h
    exact Or.inl (h ▸ timeToMinutesE_error_shape heq)
  · rename_i a heqa
    split at h
    · rename_i e2 heq2
      simp only [Except.error.injEq] at h
      exact Or.inl (h ▸ timeToMinutesE_error_shape heq2)
    · rename_i b heqb
      split at h
      · simp only [Except.error.injEq] at h
        exact Or.inr ⟨_, h.symm⟩
      · simp at h

theorem validateTask_error_shape {t : Task} {e : Err}
    (h : validateTask t = .error e) :
    (∃ m, e = .invalidTaskDescription m) ∨ (∃ m, e = .invalidTimeFormat m) ∨
      (∃ m, e = .invalidTimeRange m) := by
  unfold validateTask at h
  split at h
  · simp only [Except.error.injEq] at h
    exact Or.inl ⟨_, h.symm⟩
  · rcases h1 : validateTimeFormat t.startTime with e1 | u1 <;> rw [h1] at h
    · simp only [Except.error.injEq] at h
      exact Or.inr (Or.inl (h ▸ validateTimeFormat_error_shape h1))
    · rcases h2 : validateTimeFormat t.endTime with e2 | u2 <;> rw [h2] at h
      · simp only [Except.error.injEq] at h
        exact Or.inr (Or.inl (h ▸ validateTimeFormat_error_shape h2))
      · rcases validateTimeRange_error_shape h with hf | hr
        · exact Or.inr (Or.inl hf)
        · exact Or.inr (Or.inr hr)

theorem doTimeRangesOverlap_error_shape {s1 e1 s2 e2 : String} {e : Err}
    (h : doTimeRangesOverlap s1 e1 s2 e2 = .error e) :
    ∃ m, e = .invalidTimeFormat m := by
  unfold doTimeRangesOverlap at h
  rcases h1 : timeToMinutesE s1 with x | a <;> rw [h1] at h
  · simp only [Except.error.injEq] at h
    exact h ▸ timeToMinutesE_error_shape h1
  · rcases h2 : timeToMinutesE e1 with x | b <;> rw [h2] at h
    · simp only [Except.error.injEq] at h
      exact h ▸ timeToMinutesE_error_shape h2
    · rcases h3 : timeToMinutesE s2 with x | c <;> rw [h3] at h
      · simp only [Except.error.injEq] at h
        exact h ▸ timeToMinutesE_error_shape h3
      · rcases h4 : timeToMinutesE e2 with x | d <;> rw [h4] at h
        · simp only [Except.error.injEq] at h
          exact h ▸ timeToMinutesE_error_shape h4
        · simp at h

theorem checkTaskOverlap_error_shape {t : Task} :
    ∀ {l : List Task} {e : Err}, checkTaskOverlap t l = .error e →
      ∃ m, e = .invalidTimeFormat m := by
  intro l
  induction l with
  | nil => intro e h; simp [checkTaskOverlap] at h
  | cons v rest ih =>
    intro e h
    unfold checkTaskOverlap at h
    split at h
    · exact ih h
    · rcases hov : doTimeRangesOverlap t.startTime t.endTime
          v.startTime v.endTime with x | bov <;> rw [hov] at h
      · simp only [Except.error.injEq] at h
        exact h ▸ doTimeRangesOverlap_error_shape hov
      · cases bov with
        | true => simp at h
        | false => simp at h; exact ih h

/-- C4, counterexample: a candidate whose interval overlaps a stored task
but whose description is blank makes addTask throw the validation error —
no `TASK_CONFLICT` event, no `TaskConflictError` — because validation runs
before the conflict check. -/
theorem c4_counterexample_invalid_overlapping_candidate :
    tasksOverlapB taskBlank taskA = true ∧ taskA ∈ [taskA] ∧
    (addTask 3 [taskA] taskBlank).events.map Prod.fst = ["TASK_ADD_FAILED"] ∧
    (addTask 3 [taskA] taskBlank).error
      = some (.invalidTaskDescription "Task description cannot be empty.") :=
  ⟨rfl, by decide, rfl, rfl⟩

/-- C4, amended: for every structurally valid candidate found to conflict
with a stored task, addTask publishes `TASK_CONFLICT` carrying both tasks
and fails with `TaskConflictError` without storing the candidate; and on
every addTask call whatsoever, the `TaskConflictError` outcome and the
published `TASK_CONFLICT` event occur together — never one without the
other. -/
theorem c4_conflict_dual_channel :
    (∀ now tasks t c, validateTask t = .ok () →
      checkTaskOverlap t tasks = .ok (some c) →
      (addTask now tasks t).tasks = tasks ∧
      (addTask now tasks t).events.map Prod.fst = ["TASK_CONFLICT", "TASK_ADD_FAILED"] ∧
      ((addTask now tasks t).events.head?.map (fun ev => ev.2.data))
        = some (some [("newTask", .ptask t), ("existingTask", .ptask c)]) ∧
      (∃ m, (addTask now tasks t).error = some (.taskConflict m))) ∧
    (∀ now tasks t,
      (∃ m, (addTask now tasks t).error = some (.taskConflict m)) ↔
        "TASK_CONFLICT" ∈ (addTask now tasks t).events.map Prod.fst) := by
  constructor
  · intro now tasks t c hv hc
    refine ⟨?_, ?_, ?_, ?_⟩ <;> simp [addTask, addTaskBody, hv, hc, EventDataFactory.create]
  · intro now tasks t
    constructor
    · rintro ⟨m, hm⟩
      rcases hv : validateTask t with e | u
      · exfalso
        have : (addTask now tasks t).error = some e := by
          simp [addTask, addTaskBody, hv]
        rw [this] at hm
        simp only [Option.some.injEq] at hm
        rcases validateTask_error_shape hv with ⟨m2, hm2⟩ | ⟨m2, hm2⟩ | ⟨m2, hm2⟩ <;>
          rw [hm2] at hm <;> exact Err.noConfusion hm
      · rcases hc : checkTaskOverlap t tasks with e | oc
        · exfalso
          have : (addTask now tasks t).error = some e := by
            simp [addTask, addTaskBody, hv, hc]
          rw [this] at hm
          simp only [Option.some.injEq] at hm
          obtain ⟨m2, hm2⟩ := @checkTaskOverlap_error_shape t tasks e hc
          rw [hm2] at hm
          exact Err.noConfusion hm
        · rcases oc with _ | cfl
          · exfalso
            have : (addTask now tasks t).error = none := by
              simp [addTask, addTaskBody, hv, hc]
            rw [this] at hm
            exact Option.noConfusion hm
          · simp [addTask, addTaskBody, hv, hc]
    · intro hmem
      rcases hv : validateTask t with e | u
      · exfalso
        have : (addTask now tasks t).events.map Prod.fst = ["TASK_ADD_FAILED"] := by
          simp [addTask, addTaskBody, hv]
        rw [this] at hmem
        simp at hmem
      · rcases hc : checkTaskOverlap t tasks with e | oc
        · exfalso
          have : (addTask now tasks t).events.map Prod.fst = ["TASK_ADD_FAILED"] := by
            simp [addTask, addTaskBody, hv, hc]
          rw [this] at hmem
          simp at hmem
        · rcases oc with _ | cfl
          · exfalso
            have : (addTask now tasks t).events.map Prod.fst = ["TASK_ADDED"] := by
              simp [addTask, addTaskBody, hv, hc]
            rw [this] at hmem
            simp at hmem
          · exact ⟨"Task conflicts with existing task \"" ++ cfl.description ++ "\" ("
              ++ cfl.startTime ++ "-" ++ cfl.endTime ++ ")", by
                simp [addTask, addTaskBody, hv, hc]⟩

theorem c4_witness :
    validateTask taskC = .ok () ∧ checkTaskOverlap taskC [taskA] = .ok (some taskA) ∧
    ((addTask 4 [taskA] taskC).tasks = [taskA] ∧
      (addTask 4 [taskA] taskC).events.map Prod.fst = ["TASK_CONFLICT", "TASK_ADD_FAILED"] ∧
      ((addTask 4 [taskA] taskC).events.head?.map (fun ev => ev.2.data))
        = some (some [("newTask", .ptask taskC), ("existingTask", .ptask taskA)]) ∧
      (∃ m, (addTask 4 [taskA] taskC).error = some (.taskConflict m))) ∧
    ((∃ m, (addTask 4 [taskA] taskC).error = some (.taskConflict m)) ↔
      "TASK_CONFLICT" ∈ (addTask 4 [taskA] taskC).events.map Prod.fst) :=
  ⟨rfl, rfl,
    c4_conflict_dual_channel.1 4 [taskA] taskC taskA rfl rfl,
    c4_conflict_dual_channel.2 4 [taskA] taskC⟩

/-! Claim C9: removal of a non-existent description. -/

/-- C9: when no stored task matches the description case-insensitively,
removeTask returns `false` without publishing any event and leaves the
store unchanged (and, being a total function, it throws nothing). -/
theorem c9_remove_not_found (now : Nat) (tasks : List Task) (description : String)
    (h : ∀ t ∈ tasks, jsToLower t.description ≠ jsToLower description) :
    removeTask now tasks description = ⟨tasks, [], false⟩ := by
  unfold removeTask getTaskByDescription
  have hnone : tasks.find? (fun t => jsToLower t.description == jsToLower description)
      = none := by
    rw [List.find?_eq_none]
    intro t ht
    simpa using h t ht
  rw [hnone]

theorem c9_witness :
    (∀ t ∈ [taskA, taskB], jsToLower t.description ≠ jsToLower "Lunch") ∧
    removeTask 2 [taskA, taskB] "Lunch" = ⟨[taskA, taskB], [], false⟩ :=
  ⟨by decide, c9_remove_not_found 2 [taskA, taskB] "Lunch" (by decide)⟩

/-! Claim C10: the `TASK_ADD_FAILED` event on every addTask failure. -/

/-- C10: whenever addTask fails — validation failure or conflict alike —
its last published event is `TASK_ADD_FAILED` built by
`EventDataFactory.createError` from the raised error (whose payload names
the error under `errorName`), and the error is re-raised; in particular a
single conflicting call publishes exactly `TASK_CONFLICT` followed by
`TASK_ADD_FAILED`. -/
theorem c10_add_failed_event_on_failure :
    (∀ now tasks t e, (addTask now tasks t).error = some e →
      (addTask now tasks t).events.getLast?
        = some ("TASK_ADD_FAILED", EventDataFactory.createError now e
            (some ("Failed to add task \"" ++ t.description ++ "\"")))) ∧
    (∀ now tasks t c, validateTask t = .ok () → checkTaskOverlap t tasks = .ok (some c) →
      (addTask now tasks t).events.map Prod.fst = ["TASK_CONFLICT", "TASK_ADD_FAILED"]) := by
  constructor
  · intro now tasks t e he
    simp only [addTask] at he ⊢
    rcases hb : (addTaskBody now tasks t).error with _ | e2
    · simp [hb] at he
    · simp only [hb, Option.some.injEq] at he
      subst he
      simp only [hb]
      simp [List.getLast?_concat]
  · intro now tasks t c hv hc
    simp [addTask, addTaskBody, hv, hc]

theorem c10_witness :
    ((addTask 4 [taskB] taskC).error
      = some (.taskConflict ("Task conflicts with existing task \""
          ++ taskB.description ++ "\" (" ++ taskB.startTime ++ "-"
          ++ taskB.endTime ++ ")"))) ∧
    validateTask taskC = .ok () ∧ checkTaskOverlap taskC [taskB] = .ok (some taskB) ∧
    (addTask 4 [taskB] taskC).events.getLast?
      = some ("TASK_ADD_FAILED", EventDataFactory.createError 4
          (.taskConflict ("Task conflicts with existing task \""
            ++ taskB.description ++ "\" (" ++ taskB.startTime ++ "-"
            ++ taskB.endTime ++ ")"))
          (some ("Failed to add task \"" ++ taskC.description ++ "\""))) ∧
    (addTask 4 [taskB] taskC).events.map Prod.fst = ["TASK_CONFLICT", "TASK_ADD_FAILED"] :=
  ⟨rfl, rfl, rfl,
    c10_add_failed_event_on_failure.1 4 [taskB] taskC
      (.taskConflict ("Task conflicts with existing task \""
        ++ taskB.description ++ "\" (" ++ taskB.startTime ++ "-"
        ++ taskB.endTime ++ ")")) rfl,
    c10_add_failed_event_on_failure.2 4 [taskB] taskC taskB rfl rfl⟩

/-! Claim C6: listener failures are isolated. -/

/-- C6: during `notify`, the observers invoked (in order) are exactly the
attached observers interested in the event, regardless of what any
handler's `update` does — a throwing listener never prevents later
listeners from being invoked; and since every handler failure is caught
inside the dispatch loop, the outcome of the triggering operation (here
addTask: final store, events, raised error) is the same whatever observers
are attached. -/
theorem c6_listener_failure_isolation :
    (∀ os event d, (notifyAll os event d).map Prod.fst
        = (os.filter (fun o => !(observerSkips o event))).map Observer.name) ∧
    (∀ os os2 now tasks t,
      (runAddTask os now tasks t).1 = (runAddTask os2 now tasks t).1) := by
  constructor
  · intro os event d
    induction os with
    | nil => rfl
    | cons o rest ih =>
      by_cases hskip : observerSkips o event = true
      · simp [notifyAll, hskip, ih]
      · rcases hupd : o.updateResult event d with err | u <;>
          simp [notifyAll, hskip, hupd, ih, List.filter_cons, Bool.not_eq_true]
  · intro os os2 now tasks t
    rfl

/-! Claim C8: what the published events carry. -/

/-- The keys of an event's context payload. -/
def eventDataKeys (d : EventData) : List String :=
  (d.data.getD []).map Prod.fst

/-- Well-formedness of one published event: stamped with the operation's
time and carrying a human-readable message. -/
def evtWellFormed (now : Nat) (ev : Evt) : Prop :=
  ev.2.timestamp = now ∧ ev.2.message.isSome = true

theorem addTaskBody_events_wf (now : Nat) (tasks : List Task) (t : Task) :
    ∀ ev ∈ (addTaskBody now tasks t).events, evtWellFormed now ev := by
  intro ev hev
  unfold addTaskBody at hev
  rcases hv : validateTask t with e | u <;> simp only [hv] at hev
  · simp at hev
  · rcases hc : checkTaskOverlap t tasks with e | oc <;> simp only [hc] at hev
    · simp at hev
    · rcases oc with _ | c <;> simp only [] at hev <;> simp at hev <;> subst hev <;>
        exact ⟨rfl, rfl⟩

theorem addTask_events_wf (now : Nat) (tasks : List Task) (t : Task) :
    ∀ ev ∈ (addTask now tasks t).events, evtWellFormed now ev := by
  intro ev hev
  simp only [addTask] at hev
  rcases hb : (addTaskBody now tasks t).error with _ | e2 <;> simp only [hb] at hev
  · exact addTaskBody_events_wf now tasks t ev hev
  · rcases List.mem_append.mp hev with h1 | h1
    · exact addTaskBody_events_wf now tasks t ev h1
    · simp at h1
      subst h1
      exact ⟨rfl, rfl⟩

theorem updateTask_events_wf (now : Nat) (tasks : List Task) (taskId : String)
    (u : TaskUpdate) : ∀ ev ∈ (updateTask now tasks taskId u).events, evtWellFormed now ev := by
  intro ev hev
  unfold updateTask at hev
  rcases hf : tasks.find? (fun t => t.id == taskId) with _ | task <;> simp only [hf] at hev
  · simp at hev
  · rcases hv : validateTask ((task.clone).update u now) with e | uu <;>
      simp only [hv] at hev
    · simp at hev
    · rcases hc : checkTaskOverlap ((task.clone).update u now)
          (tasks.filter (fun t => t.id != taskId)) with e | oc <;> simp only [hc] at hev
      · simp at hev
      · rcases oc with _ | c <;> simp only [] at hev <;> simp at hev <;> subst hev <;>
          exact ⟨rfl, rfl⟩

theorem removeTask_events_wf (now : Nat) (tasks : List Task) (d : String) :
    ∀ ev ∈ (removeTask now tasks d).events, evtWellFormed now ev := by
  intro ev hev
  unfold removeTask at hev
  rcases hf : getTaskByDescription tasks d with _ | task <;> simp only [hf] at hev
  · simp at hev
  · simp at hev
    subst hev
    exact ⟨rfl, rfl⟩

theorem markTaskCompleted_events_wf (now : Nat) (tasks : List Task) (d : String) :
    ∀ ev ∈ (markTaskCompleted now tasks d).events, evtWellFormed now ev := by
  intro ev hev
  unfold markTaskCompleted at hev
  rcases hf : getTaskByDescription tasks d with _ | task <;> simp only [hf] at hev
  · simp at hev
  · simp at hev
    subst hev
    exact ⟨rfl, rfl⟩

theorem clearAllTasks_events_wf (now : Nat) (tasks : List Task) :
    ∀ ev ∈ (clearAllTasks now tasks).events, evtWellFormed now ev := by
  intro ev hev
  simp [clearAllTasks] at hev
  subst hev
  exact ⟨rfl, rfl⟩

theorem importFromJSON_events_wf (now : Nat) (tasks : List Task) (j : JValue) :
    ∀ ev ∈ (importFromJSON now tasks j).events, evtWellFormed now ev := by
  intro ev hev
  rcases j with _ | b | n | s | records | fields <;> simp only [importFromJSON] at hev
  case jarr =>
    rcases hl : importTasksLoop [] records with ⟨imported, _ | e⟩ <;>
      simp only [hl] at hev
    · simp at hev
      subst hev
      exact ⟨rfl, rfl⟩
    · simp at hev
  all_goals simp at hev

/-- C8, amended: every event published by the six mutating operations
carries the operation's timestamp and a human-readable message; the
`TASK_CONFLICT` event's context carries the candidate under key `newTask`
and the pre-existing conflicting task under key `existingTask` (not
`task` / `conflictingTask`); the `TASK_UPDATE_FAILED` conflict event
carries the conflicting task under key `conflictingTask`; and every
failure event built from an error carries the error's name under key
`errorName`. -/
theorem c8_event_payload_characterization :
    (∀ now tasks t, ∀ ev ∈ (addTask now tasks t).events, evtWellFormed now ev) ∧
    (∀ now tasks taskId u, ∀ ev ∈ (updateTask now tasks taskId u).events,
      evtWellFormed now ev) ∧
    (∀ now tasks d, ∀ ev ∈ (removeTask now tasks d).events, evtWellFormed now ev) ∧
    (∀ now tasks d, ∀ ev ∈ (markTaskCompleted now tasks d).events, evtWellFormed now ev) ∧
    (∀ now tasks, ∀ ev ∈ (clearAllTasks now tasks).events, evtWellFormed now ev) ∧
    (∀ now tasks j, ∀ ev ∈ (importFromJSON now tasks j).events, evtWellFormed now ev) ∧
    (∀ now tasks t c, validateTask t = .ok () → checkTaskOverlap t tasks = .ok (some c) →
      ((addTask now tasks t).events.head?.map (fun ev => (ev.1, eventDataKeys ev.2)))
        = some ("TASK_CONFLICT", ["newTask", "existingTask"])) ∧
    (∀ now tasks taskId u task c,
      tasks.find? (fun t => t.id == taskId) = some task →
      validateTask ((task.clone).update u now) = .ok () →
      checkTaskOverlap ((task.clone).update u now)
          (tasks.filter (fun t => t.id != taskId)) = .ok (some c) →
      ((updateTask now tasks taskId u).events.head?.map (fun ev => (ev.1, eventDataKeys ev.2)))
        = some ("TASK_UPDATE_FAILED", ["taskId", "updatedTask", "conflictingTask"])) ∧
    (∀ now tasks t e, (addTask now tasks t).error = some e →
      ((addTask now tasks t).events.getLast?.map (fun ev => (ev.1, eventDataKeys ev.2)))
        = some ("TASK_ADD_FAILED", ["errorName", "errorStack"])) := by
  refine ⟨addTask_events_wf, updateTask_events_wf, removeTask_events_wf,
    markTaskCompleted_events_wf, clearAllTasks_events_wf, importFromJSON_events_wf,
    ?_, ?_, ?_⟩
  · intro now tasks t c hv hc
    simp [addTask, addTaskBody, hv, hc, eventDataKeys, EventDataFactory.create]
  · intro now tasks taskId u task c hf hv hc
    simp [updateTask, hf, hv, hc, eventDataKeys, EventDataFactory.create]
  · intro now tasks t e he
    simp only [addTask] at he ⊢
    rcases hb : (addTaskBody now tasks t).error with _ | e2
    · simp [hb] at he
    · simp only [hb]
      simp [List.getLast?_concat, eventDataKeys, EventDataFactory.createError]

/-- The error a conflicting add of `taskC` against stored `taskA`
raises. -/
def conflictErrCA : Err :=
  .taskConflict ("Task conflicts with existing task \"" ++ taskA.description
    ++ "\" (" ++ taskA.startTime ++ "-" ++ taskA.endTime ++ ")")

/-- C8, counterexample: the `TASK_CONFLICT` event published by a
conflicting addTask keys its context by `newTask` / `existingTask`; there
is no `task` key and no `conflictingTask` key, contradicting the claimed
key names. -/
theorem c8_counterexample_conflict_keys :
    ∃ ev, (addTask 6 [taskA] taskC).events.head? = some ev ∧
      ev.1 = "TASK_CONFLICT" ∧
      eventDataKeys ev.2 = ["newTask", "existingTask"] ∧
      "task" ∉ eventDataKeys ev.2 ∧
      "conflictingTask" ∉ eventDataKeys ev.2 :=
  ⟨_, rfl, rfl, rfl, by decide, by decide⟩

theorem c8_witness :
    validateTask taskC = .ok () ∧
    checkTaskOverlap taskC [taskA] = .ok (some taskA) ∧
    (((addTask 6 [taskA] taskC).events.head?.map (fun ev => (ev.1, eventDataKeys ev.2)))
      = some ("TASK_CONFLICT", ["newTask", "existingTask"])) ∧
    ([taskA, taskB].find? (fun t => t.id == "TASK-2") = some taskB) ∧
    validateTask ((taskB.clone).update overlapOnlyUpdate 9) = .ok () ∧
    checkTaskOverlap ((taskB.clone).update overlapOnlyUpdate 9)
        ([taskA, taskB].filter (fun t => t.id != "TASK-2")) = .ok (some taskA) ∧
    (((updateTask 9 [taskA, taskB] "TASK-2" overlapOnlyUpdate).events.head?.map
        (fun ev => (ev.1, eventDataKeys ev.2)))
      = some ("TASK_UPDATE_FAILED", ["taskId", "updatedTask", "conflictingTask"])) ∧
    ((addTask 6 [taskA] taskC).error = some conflictErrCA) ∧
    (((addTask 6 [taskA] taskC).events.getLast?.map (fun ev => (ev.1, eventDataKeys ev.2)))
      = some ("TASK_ADD_FAILED", ["errorName", "errorStack"])) :=
  ⟨rfl, rfl,
    c8_event_payload_characterization.2.2.2.2.2.2.1 6 [taskA] taskC taskA rfl rfl,
    rfl, rfl, rfl,
    c8_event_payload_characterization.2.2.2.2.2.2.2.1 9 [taskA, taskB] "TASK-2"
      overlapOnlyUpdate taskB taskA rfl rfl rfl,
    rfl,
    c8_event_payload_characterization.2.2.2.2.2.2.2.2 6 [taskA] taskC conflictErrCA rfl⟩

/-! Claim C7: export / import round trip. -/

/-- The fields the round-trip claim compares: id, start, end, priority,
completion flag. -/
def taskKey (t : Task) : String × String × String × String × Bool :=
  (t.id, t.startTime, t.endTime, t.priority, t.completed)

theorem fromJSON_toJSON_fields (t : Task) :
    (Task.fromJSON t.toJSON).id = t.id ∧
    (Task.fromJSON t.toJSON).description = t.description ∧
    (Task.fromJSON t.toJSON).startTime = t.startTime ∧
    (Task.fromJSON t.toJSON).endTime = t.endTime ∧
    (Task.fromJSON t.toJSON).priority = t.priority ∧
    (Task.fromJSON t.toJSON).completed = t.completed :=
  ⟨rfl, rfl, rfl, rfl, rfl, rfl⟩

theorem validateTask_congr {t1 t2 : Task} (hd : t1.description = t2.description)
    (hs : t1.startTime = t2.startTime) (he : t1.endTime = t2.endTime) :
    validateTask t1 = validateTask t2 := by
  simp only [validateTask, hd, hs, he]

theorem validateTask_ok_inv {t : Task} (h : validateTask t = .ok ()) :
    (∃ a, timeToMinutesE t.startTime = .ok a) ∧ ∃ b, timeToMinutesE t.endTime = .ok b := by
  unfold validateTask at h
  split at h
  · simp at h
  · rcases h1 : validateTimeFormat t.startTime with e | u
    · simp [h1] at h
    · simp only [h1] at h
      rcases h2 : validateTimeFormat t.endTime with e | u2
      · simp [h2] at h
      · simp only [h2] at h
        unfold validateTimeRange at h
        rcases h3 : timeToMinutesE t.startTime with e | a
        · simp [h3] at h
        · simp only [h3] at h
          rcases h4 : timeToMinutesE t.endTime with e | b
          · simp [h4] at h
          · exact ⟨⟨a, rfl⟩, ⟨b, rfl⟩⟩

theorem insertSorted_perm (p : Nat × Task) (l : List (Nat × Task)) :
    (insertSorted p l).Perm (p :: l) := by
  induction l with
  | nil => exact List.Perm.refl _
  | cons q rest ih =>
    unfold insertSorted
    by_cases hle : p.1 ≤ q.1
    · rw [if_pos hle]
    · rw [if_neg hle]
      exact (List.Perm.cons q ih).trans (List.Perm.swap p q rest)

theorem foldr_insertSorted_perm (l : List (Nat × Task)) :
    (l.foldr insertSorted []).Perm l := by
  induction l with
  | nil => exact List.Perm.refl _
  | cons p rest ih =>
    simp only [List.foldr_cons]
    exact (insertSorted_perm p _).trans (List.Perm.cons p ih)

theorem keyedByStart_ok : ∀ {tasks : List Task},
    (∀ t ∈ tasks, ∃ k, timeToMinutesE t.startTime = .ok k) →
    ∃ ps, keyedByStart tasks = .ok ps ∧ ps.map Prod.snd = tasks := by
  intro tasks
  induction tasks with
  | nil => intro _; exact ⟨[], rfl, rfl⟩
  | cons t rest ih =>
    intro h
    obtain ⟨k, hk⟩ := h t (by simp)
    obtain ⟨ps, hps, hmap⟩ := ih (fun u hu => h u (by simp [hu]))
    refine ⟨(k, t) :: ps, ?_, by simp [hmap]⟩
    simp only [keyedByStart, hk, hps, except_bind_ok]

theorem getAllTasks_ok_perm {tasks : List Task}
    (h : ∀ t ∈ tasks, ∃ k, timeToMinutesE t.startTime = .ok k) :
    ∃ sorted, getAllTasks tasks = .ok sorted ∧ sorted.Perm tasks := by
  obtain ⟨ps, hps, hmap⟩ := keyedByStart_ok h
  refine ⟨(ps.foldr insertSorted []).map Prod.snd, ?_, ?_⟩
  · simp only [getAllTasks, hps, except_bind_ok]
  · have hp := (foldr_insertSorted_perm ps).map Prod.snd
    rw [hmap] at hp
    exact hp

theorem exportToJSON_ok {tasks sorted : List Task}
    (h : getAllTasks tasks = .ok sorted) :
    exportToJSON tasks = .ok (.jarr (sorted.map Task.toJSON)) := by
  simp only [exportToJSON, h, except_bind_ok]

theorem importLoop_roundtrip : ∀ (l acc : List Task),
    (∀ t ∈ l, validateTask t = .ok ()) →
    (∀ t ∈ l, ∀ a ∈ acc, a.id ≠ t.id) →
    l.Pairwise (fun a b => a.id ≠ b.id) →
    importTasksLoop acc (l.map Task.toJSON)
      = (acc ++ l.map (fun t => Task.fromJSON t.toJSON), none) := by
  intro l
  induction l with
  | nil => intro acc _ _ _; simp [importTasksLoop]
  | cons t rest ih =>
    intro acc hval hdisj hpw
    obtain ⟨hid, hdesc, hst, het, hpr, hcmp⟩ := fromJSON_toJSON_fields t
    have hvt : validateTask (Task.fromJSON t.toJSON) = .ok () := by
      rw [validateTask_congr hdesc hst het]
      exact hval t (by simp)
    have hna : ¬ (acc.any (fun u => u.id == (Task.fromJSON t.toJSON).id) = true) := by
      intro hany
      obtain ⟨a, ha, hbeq⟩ := List.any_eq_true.mp hany
      rw [beq_iff_eq, hid] at hbeq
      exact hdisj t (by simp) a ha hbeq
    have hset : mapSet acc (Task.fromJSON t.toJSON) = acc ++ [Task.fromJSON t.toJSON] := by
      unfold mapSet
      rw [if_neg hna]
    rw [List.map_cons]
    simp only [importTasksLoop, hvt, hset]
    rw [ih (acc ++ [Task.fromJSON t.toJSON])
      (fun u hu => hval u (by simp [hu]))
      ?_ (List.Pairwise.of_cons hpw)]
    · simp
    · intro u hu a ha
      rcases List.mem_append.mp ha with ha2 | ha2
      · exact hdisj u (by simp [hu]) a ha2
      · have : a = Task.fromJSON t.toJSON := by simpa using ha2
        rw [this, hid]
        exact (List.pairwise_cons.mp hpw).1 u hu

/-- C7: exporting a schedule of valid tasks (with the distinct ids any
map-backed store has) and importing the document into a freshly reset
manager succeeds and reproduces the same set of tasks — same ids, start
and end times, priorities, and completion flags. -/
theorem c7_export_import_roundtrip (now : Nat) (tasks : List Task)
    (hval : ∀ t ∈ tasks, validateTask t = .ok ())
    (hids : tasks.Pairwise (fun a b => a.id ≠ b.id)) :
    ∃ doc, exportToJSON tasks = .ok doc ∧
      (importFromJSON now [] doc).error = none ∧
      ((importFromJSON now [] doc).tasks.map taskKey).Perm (tasks.map taskKey) := by
  have hkeys : ∀ t ∈ tasks, ∃ k, timeToMinutesE t.startTime = .ok k :=
    fun t ht => (validateTask_ok_inv (hval t ht)).1
  obtain ⟨sorted, hsort, hperm⟩ := getAllTasks_ok_perm hkeys
  have hvs : ∀ t ∈ sorted, validateTask t = .ok () :=
    fun t ht => hval t (hperm.mem_iff.mp ht)
  have hpws : sorted.Pairwise (fun a b => a.id ≠ b.id) :=
    (List.Perm.pairwise_iff (fun h => Ne.symm h) hperm).mpr hids
  have hloop := importLoop_roundtrip sorted [] hvs (by simp) hpws
  obtain ⟨ht, he⟩ := importFromJSON_jarr_eq now [] (sorted.map Task.toJSON)
  refine ⟨.jarr (sorted.map Task.toJSON), exportToJSON_ok hsort, ?_, ?_⟩
  · rw [he, hloop]
  · rw [ht, hloop]
    simp only [List.nil_append]
    have hmapkey : (sorted.map (fun t => Task.fromJSON t.toJSON)).map taskKey
        = sorted.map taskKey := by
      rw [List.map_map]
      apply List.map_congr_left
      intro x hx
      obtain ⟨hid, _, hst, het, hpr, hcmp⟩ := fromJSON_toJSON_fields x
      simp [taskKey, Function.comp, hid, hst, het, hpr, hcmp]
    rw [hmapkey]
    exact hperm.map taskKey

theorem c7_witness :
    (∀ t ∈ [taskB, taskA], validateTask t = .ok ()) ∧
    ([taskB, taskA].Pairwise (fun a b => a.id ≠ b.id)) ∧
    (∃ doc, exportToJSON [taskB, taskA] = .ok doc ∧
      (importFromJSON 11 [] doc).error = none ∧
      ((importFromJSON 11 [] doc).tasks.map taskKey).Perm ([taskB, taskA].map taskKey)) :=
  ⟨by decide, by decide,
    c7_export_import_roundtrip 11 [taskB, taskA] (by decide) (by decide)⟩

end AstroSched
